import Mathlib

/-
  Verification development for `src/module/yuzu.py` of the ns-emu-tools
  repository: a shallow embedding of the module's data model and operations,
  followed by theorems settling the frozen claims about it.

  Modelling conventions:
  * A filesystem path (`pathlib.Path`) is a list of components; `joinpath`
    is list append.  The filesystem is a predicate `Path → Bool` telling
    which paths exist.
  * Python strings are Lean `String`s; `str.startswith` / `str.endswith` /
    slicing are expressed on the underlying character lists, which matches
    Python's character-based semantics.
  * The persisted configuration object (`config.yuzu`) and the process-wide
    settings are explicit fields of a `World` record threaded through each
    operation; `dump_config()` is the identity on the model state (it only
    persists what the in-memory record already holds).
  * External collaborators (release feed, downloader, unpacker, process and
    window enumeration, firmware helper, `os.path` absolutisation) are
    fields of an `Env` record: arbitrary functions the theorems quantify
    over.
  * Python exceptions raised to the caller are `Except EmuError`; an
    operation that catches an exception internally is total at that point.
-/

namespace Yuzu

/-- A filesystem path, as its list of components (`pathlib.Path`). -/
abbrev Path : Type := List String

/-- The last component of a path (`pathlib.Path.name`). -/
def pathName (p : Path) : String := (List.getLast? p).getD ""

/-- Character-list test used below: does `pat` occur as a prefix of the list? -/
def charsStart (s pat : List Char) : Bool := List.isPrefixOf pat s

/-- Python `s.startswith(p)` (character-based). -/
def strStarts (s p : String) : Bool := charsStart s.data p.data

/-- Python `s.endswith(p)` (character-based). -/
def strEnds (s p : String) : Bool := List.isSuffixOf p.data s.data

/-- Python `s[n:]` (character-based slicing). -/
def strDrop (s : String) (n : Nat) : String := String.mk (List.drop n s.data)

/-- Does `pat` occur as a contiguous substring of the character list? -/
def hasSub (pat : List Char) : List Char → Bool
  | [] => List.isEmpty pat
  | c :: rest => List.isPrefixOf pat (c :: rest) || hasSub pat rest

/-- Python `p in s` for strings. -/
def strHasSub (s p : String) : Bool := hasSub p.data s.data

/-- Python truthiness of an optional string: `None` and `''` are falsy. -/
def versionTruthy : Option String → Bool
  | none => false
  | some s => s != ""

/-- One release asset: `{name, download_url}` (data model of the release feed). -/
structure Asset where
  name : String
  download_url : String
deriving DecidableEq

/-- Remote release descriptor `{tag_name, assets}`; an absent tag is the
empty string (Python falsiness of `release_info.tag_name`). -/
structure ReleaseInfo where
  tag_name : String
  assets : List Asset
deriving DecidableEq

/-- The persisted emulator configuration record `config.yuzu`
(`{yuzu_path, yuzu_version, yuzu_firmware, branch}`); optional fields model
Python `None`. -/
structure YuzuConfig where
  yuzu_path : Path
  yuzu_version : Option String
  yuzu_firmware : Option String
  branch : Option String
deriving DecidableEq

/-- The two settings flags `src/module/yuzu.py` reads from `config.setting`. -/
structure Settings where
  rename_yuzu_to_cemu : Bool
  autoDeleteAfterInstall : Bool
deriving DecidableEq

/-- Outcome of `_get_yuzu_data_storage_config`: the qt-config file may be
missing (`None` returned), reading or indexing the parser may raise
(`parseError`), or the `Data%20Storage` section is parsed into key/value
entries. -/
inductive QtConfigState
  | missing
  | parseError
  | parsed (entries : List (String × String))
deriving DecidableEq

/-- Exceptions the module raises to its caller:
`IgnoredException`, `VersionNotFoundException`, `FailToCopyFiles`. -/
inductive EmuError
  | ignored (msg : String)
  | versionNotFound (version : String) (branch : String) (emu : String)
  | failToCopyFiles (msg : String)
deriving DecidableEq

/-- External collaborators of the module, as arbitrary functions: the
release feed, the GitHub mirror URL mapper, the downloader, the unpacker,
filesystem bulk operations, process/window enumeration and the firmware
helper.  Filesystem effects are functions on the existence predicate. -/
structure Env where
  releaseInfo : String → String → ReleaseInfo
  ggdu : String → String
  download : String → Path
  tempDir : Path
  uncompress : Path → Path → (Path → Bool) → (Path → Bool)
  rmSourceTarballs : Path → (Path → Bool) → (Path → Bool)
  copytree : Path → Path → (Path → Bool) → Option (Path → Bool)
  rmtree : Path → (Path → Bool) → (Path → Bool)
  removeFile : Path → (Path → Bool) → (Path → Bool)
  find_all_instances : String → List Nat
  getWin : Nat → Except Unit (List String)
  install_firmware : Option String → Path → Option String
  absP : Path → Path

/-- Environment of the user-data path resolvers: the roaming-appdata
directory, the parsed qt-config state, and the external helpers
`decode_yuzu_path` (from `utils/common.py`) and `pathlib.Path`-from-string. -/
structure PathEnv where
  appdata : Path
  qtConfig : QtConfigState
  decode_yuzu_path : String → String
  pathOfString : String → Path

/-- The whole mutable state an operation can touch: the configuration
record, the settings, the filesystem and the keyed install history
(`storage.yuzu_history`). -/
structure World where
  cfgYuzu : YuzuConfig
  settings : Settings
  fs : Path → Bool
  hist : Path → Option YuzuConfig

/-- The fixed candidate executable list `detect_exe_list`. -/
def detect_exe_list : List String := ["yuzu.exe", "eden.exe", "suzu.exe", "cemu.exe"]

/-- The asset-name test of the selection loop in `download_yuzu`
(lines 42-51): a `.7z` archive, or a `Windows-Yuzu-EA-*.zip`, or an
`Eden-Windows-*.zip`. -/
def assetMatches (a : Asset) : Bool :=
  strEnds a.name ".7z" ||
  (strStarts a.name "Windows-Yuzu-EA-" && strEnds a.name ".zip") ||
  (strStarts a.name "Eden-Windows-" && strEnds a.name ".zip")

/-- The selection loop of `download_yuzu` (lines 41-51): scan the assets in
order and return `get_github_download_url` of the first match. -/
def selectAssetUrl (ggdu : String → String) : List Asset → Option String
  | [] => none
  | a :: rest =>
    if assetMatches a then some (ggdu a.download_url) else selectAssetUrl ggdu rest

/-- `download_yuzu(target_version, branch)` (lines 29-57): branch gate,
release lookup, tag check, asset selection, download.  Returns the path of
the downloaded file. -/
def download_yuzu (env : Env) (target_version branch : String) : Except EmuError Path :=
  if branch ≠ "eden" then
    .error (.ignored "Only support install yuzu on branch [eden]")
  else
    let release_info := env.releaseInfo target_version branch
    if release_info.tag_name = "" then
      .error (.versionNotFound target_version branch "yuzu")
    else
      match selectAssetUrl env.ggdu release_info.assets with
      | none => .error (.ignored "Fail to fetch yuzu download url.")
      | some url => .ok (env.download url)

/-- `copy_back_yuzu_files(tmp_dir, yuzu_path)` (lines 82-94): delete the
source tarballs matched by the glob, `copytree` into the install dir
(wrapping a failure into `FailToCopyFiles`), then remove the temp dir. -/
def copy_back_yuzu_files (env : Env) (tmp_dir yuzu_path : Path) (fs : Path → Bool) :
    Except EmuError (Path → Bool) :=
  let fs1 := env.rmSourceTarballs tmp_dir fs
  match env.copytree tmp_dir yuzu_path fs1 with
  | none => .error (.failToCopyFiles "Yuzu 文件复制失败")
  | some fs2 => .ok (env.rmtree tmp_dir fs2)

/-- `install_eden(target_version)` (lines 70-79): download, unpack into the
`eden-install` temp dir, copy back, optionally delete the package. -/
def install_eden (env : Env) (w : World) (target_version : String) :
    Except EmuError (Path → Bool) :=
  match download_yuzu env target_version "eden" with
  | .error e => .error e
  | .ok yuzu_package_path =>
    let tmp_dir : Path := env.tempDir ++ ["eden-install"]
    let fs1 := env.uncompress yuzu_package_path tmp_dir w.fs
    match copy_back_yuzu_files env tmp_dir w.cfgYuzu.yuzu_path fs1 with
    | .error e => .error e
    | .ok fs2 =>
      .ok (if w.settings.autoDeleteAfterInstall
           then env.removeFile yuzu_package_path fs2 else fs2)

/-- `Path.mkdir(parents=True, exist_ok=True)`: the directory and all its
ancestors come to exist. -/
def mkdirParents (p : Path) (fs : Path → Bool) : Path → Bool :=
  fun q => fs q || List.isPrefixOf q p

/-- `os.replace(src, dst)`: `dst` now exists, `src` no longer does. -/
def replaceFile (src dst : Path) (fs : Path → Bool) : Path → Bool :=
  fun q => if q = dst then true else if q = src then false else fs q

/-- `get_yuzu_exe_path()` (lines 136-144): prefer `cemu.exe` when the rename
flag is set or `yuzu.exe` is absent; otherwise the first existing name of
`detect_exe_list`; fall back to `yuzu.exe`. -/
def get_yuzu_exe_path (cfg : YuzuConfig) (st : Settings) (fs : Path → Bool) : Path :=
  let yz_path := cfg.yuzu_path
  if (st.rename_yuzu_to_cemu || !fs (yz_path ++ ["yuzu.exe"])) && fs (yz_path ++ ["cemu.exe"]) then
    yz_path ++ ["cemu.exe"]
  else
    match List.find? (fun exe_name => fs (yz_path ++ [exe_name])) detect_exe_list with
    | some exe_name => yz_path ++ [exe_name]
    | none => yz_path ++ ["yuzu.exe"]

/-- `install_yuzu(target_version, branch)` (lines 97-118): idempotence
short-circuit, branch gate, install, ensure install dir, optional rename,
persist version and branch. -/
def install_yuzu (env : Env) (w : World) (target_version branch : String) :
    Except EmuError World :=
  if some target_version = w.cfgYuzu.yuzu_version then
    .ok w
  else if branch ≠ "eden" then
    .error (.ignored "Only support install yuzu on branch [eden]")
  else
    match install_eden env w target_version with
    | .error e => .error e
    | .ok fs2 =>
      let yuzu_path := w.cfgYuzu.yuzu_path
      let fs3 := mkdirParents yuzu_path fs2
      let exe_path := get_yuzu_exe_path w.cfgYuzu w.settings fs3
      let fs4 := if w.settings.rename_yuzu_to_cemu && fs3 exe_path then
          replaceFile exe_path (yuzu_path ++ ["cemu.exe"]) fs3
        else fs3
      .ok { w with
            cfgYuzu := { w.cfgYuzu with
                         yuzu_version := some target_version,
                         branch := some branch },
            fs := fs4 }

/-- The title scan of one poll iteration (lines 169-187): the first window
title starting with a recognized prefix yields `(version, branch)` by the
prefix-specific slice; `yuzu Early Access ` is tested inside the `yuzu `
case, mirroring the nesting of the source. -/
def scanWindows : List String → Option (String × String)
  | [] => none
  | window_name :: rest =>
    if strStarts window_name "yuzu " then
      if strStarts window_name "yuzu Early Access " then
        some (strDrop window_name 18, "ea")
      else
        some (strDrop window_name 5, "mainline")
    else if strStarts window_name "Eden | " then
      some (strDrop window_name 7, "eden")
    else scanWindows rest

/-- The poll loop of `detect_yuzu_version` (lines 164-190): up to `fuel`
iterations (30 in the source), stopping once the version is truthy; `i`
counts the calls to `get_all_window_name`, whose results the environment
supplies per call; an enumeration failure (`Except.error`) aborts the whole
loop, keeping whatever was found, as the surrounding `try` does. -/
def pollGo (getWin : Nat → Except Unit (List String)) :
    Nat → Nat → Option String × Option String → Option String × Option String
  | _, 0, vb => vb
  | i, fuel + 1, (version, branch) =>
    if versionTruthy version then (version, branch)
    else
      match getWin i with
      | .error _ => (version, branch)
      | .ok titles =>
        match scanWindows titles with
        | some (v, b) => pollGo getWin (i + 1) fuel (some v, some b)
        | none => pollGo getWin (i + 1) fuel (version, branch)

/-- `detect_yuzu_version()` (lines 147-198): missing executable clears the
stored version and returns `None`; a running instance returns `None` with
no state change; otherwise poll, set `branch` only when a truthy version
was found, and always store the polled version.  The `Except` result
channel records that every path returns normally. -/
def detect_yuzu_version (env : Env) (w : World) :
    World × Except EmuError (Option String) :=
  let yz_path := get_yuzu_exe_path w.cfgYuzu w.settings w.fs
  if w.fs yz_path = false then
    ({ w with cfgYuzu := { w.cfgYuzu with yuzu_version := none } }, .ok none)
  else if env.find_all_instances (pathName yz_path) ≠ [] then
    (w, .ok none)
  else
    let vb := pollGo env.getWin 0 30 (none, none)
    let cfg1 := if versionTruthy vb.1 then { w.cfgYuzu with branch := vb.2 } else w.cfgYuzu
    ({ w with cfgYuzu := { cfg1 with yuzu_version := vb.1 } }, .ok vb.1)

/-- `start_yuzu()` (lines 201-208): launch when the executable exists, raise
`IgnoredException` when it does not. -/
def start_yuzu (w : World) : Except EmuError Unit :=
  let yz_path := get_yuzu_exe_path w.cfgYuzu w.settings w.fs
  if w.fs yz_path then .ok ()
  else .error (.ignored ("yuzu not exist in [" ++ String.intercalate "\\" yz_path ++ "]"))

/-- `get_yuzu_user_path()` (lines 211-219): the in-tree `user` folder, else
the roaming folders `yuzu` then `eden`, else the in-tree folder regardless
of existence. -/
def get_yuzu_user_path (cfg : YuzuConfig) (fs : Path → Bool) (penv : PathEnv) : Path :=
  let yuzu_path := cfg.yuzu_path
  if fs (yuzu_path ++ ["user"]) then yuzu_path ++ ["user"]
  else if fs (penv.appdata ++ ["yuzu"]) then penv.appdata ++ ["yuzu"]
  else if fs (penv.appdata ++ ["eden"]) then penv.appdata ++ ["eden"]
  else yuzu_path ++ ["user"]

/-- `get_yuzu_nand_path()` (lines 243-254).  The `try` body either keeps the
default (config file missing, or section empty — a falsy `SectionProxy`),
raises (modelled `Except.error`), or overrides the default with
`Path(decode_yuzu_path(value))`.  Modelled from the spec: the key-absent
case makes Python call `decode_yuzu_path(None)` (and `Path(None)`), whose
source in `utils/common.py` is not under `src/`; the spec's "default path
stands" is modelled as that call raising, caught by the `except`. -/
def get_yuzu_nand_path (cfg : YuzuConfig) (fs : Path → Bool) (penv : PathEnv) : Path :=
  let user_path := get_yuzu_user_path cfg fs penv
  let nand_path := user_path ++ ["nand"]
  let attempt : Except Unit Path :=
    match penv.qtConfig with
    | .parseError => .error ()
    | .missing => .ok nand_path
    | .parsed entries =>
      if entries = [] then .ok nand_path
      else
        match List.lookup "nand_directory" entries with
        | none => .error ()
        | some path_str => .ok (penv.pathOfString (penv.decode_yuzu_path path_str))
  match attempt with
  | .ok p => p
  | .error _ => nand_path

/-- `get_yuzu_load_path()` (lines 257-268): like the NAND resolver, but the
raw value is decoded only when it contains the two-character marker
`\u`; a key-absent lookup makes Python evaluate `'\u' in None`, which
raises `TypeError`, caught by the `except`. -/
def get_yuzu_load_path (cfg : YuzuConfig) (fs : Path → Bool) (penv : PathEnv) : Path :=
  let user_path := get_yuzu_user_path cfg fs penv
  let load_path := user_path ++ ["load"]
  let attempt : Except Unit Path :=
    match penv.qtConfig with
    | .parseError => .error ()
    | .missing => .ok load_path
    | .parsed entries =>
      if entries = [] then .ok load_path
      else
        match List.lookup "load_directory" entries with
        | none => .error ()
        | some path_str =>
          .ok (penv.pathOfString
                (if strHasSub path_str "\\u" then penv.decode_yuzu_path path_str
                 else path_str))
  match attempt with
  | .ok p => p
  | .error _ => load_path

/-- `install_firmware_to_yuzu(firmware_version)` (lines 121-133): skip when
equal to the stored firmware; otherwise delegate to the external helper and
persist a truthy returned version into `yuzu_firmware` only. -/
def install_firmware_to_yuzu (env : Env) (penv : PathEnv) (w : World)
    (firmware_version : Option String) : World :=
  if firmware_version = w.cfgYuzu.yuzu_firmware then w
  else
    let firmware_path :=
      get_yuzu_nand_path w.cfgYuzu w.fs penv ++ ["system", "Contents", "registered"]
    let new_version := env.install_firmware firmware_version firmware_path
    if versionTruthy new_version then
      { w with cfgYuzu := { w.cfgYuzu with yuzu_firmware := new_version } }
    else w

/-- Modelled from the spec: the default-constructed `YuzuConfig()` of the
`config` module (not under `src/`); the spec's data model gives it no
version, firmware or branch. -/
def defaultYuzuConfig : YuzuConfig :=
  { yuzu_path := [], yuzu_version := none, yuzu_firmware := none, branch := none }

/-- Modelled from the spec: `add_yuzu_history` of the `storage` module (not
under `src/`) — "historical configs keyed by resolved absolute path are
retained in a side history store". -/
def add_yuzu_history (env : Env) (c : YuzuConfig) (h : Path → Option YuzuConfig) :
    Path → Option YuzuConfig :=
  fun k => if k = env.absP c.yuzu_path then some c else h k

/-- `update_yuzu_path(new_yuzu_path)` (lines 271-287): create the directory
(with parents) when absent, then skip when the absolutised path equals the
current one; otherwise archive the current config, adopt the history entry
for the new path (or a default one), point it at the new path, and record
it in the history if absent. -/
def update_yuzu_path (env : Env) (w : World) (new_yuzu_path : Path) : World :=
  let fs1 := if w.fs new_yuzu_path = false then mkdirParents new_yuzu_path w.fs else w.fs
  if env.absP new_yuzu_path = env.absP w.cfgYuzu.yuzu_path then
    { w with fs := fs1 }
  else
    let hist1 := add_yuzu_history env w.cfgYuzu w.hist
    let key := env.absP new_yuzu_path
    let cfg1 := { (hist1 key).getD defaultYuzuConfig with yuzu_path := key }
    let hist2 := if (hist1 cfg1.yuzu_path).isSome then hist1
                 else add_yuzu_history env cfg1 hist1
    { w with cfgYuzu := cfg1, hist := hist2, fs := fs1 }

/-! Concrete fixtures used by witnesses and counterexamples. -/

/-- A concrete environment: empty release feed, identity URL mapper, inert
filesystem effects, no running instances, no windows. -/
def env0 : Env where
  releaseInfo := fun _ _ => { tag_name := "", assets := [] }
  ggdu := id
  download := fun _ => ["pkg.7z"]
  tempDir := ["tmp"]
  uncompress := fun _ _ fs => fs
  rmSourceTarballs := fun _ fs => fs
  copytree := fun _ _ fs => some fs
  rmtree := fun _ fs => fs
  removeFile := fun _ fs => fs
  find_all_instances := fun _ => []
  getWin := fun _ => .ok []
  install_firmware := fun _ _ => none
  absP := id

/-- Concrete settings: both flags off. -/
def settings0 : Settings where
  rename_yuzu_to_cemu := false
  autoDeleteAfterInstall := false

/-- A concrete stored configuration with version `1.0` on branch `eden`. -/
def cfg0 : YuzuConfig where
  yuzu_path := ["C:", "yuzu"]
  yuzu_version := some "1.0"
  yuzu_firmware := none
  branch := some "eden"

/-- A concrete world where no path exists on disk. -/
def w0 : World where
  cfgYuzu := cfg0
  settings := settings0
  fs := fun _ => false
  hist := fun _ => none

/-! Claim C1. -/

/-- C1 (counterexample): with branch `"mainline" ≠ "eden"` but a requested
version equal to the stored one, `install_yuzu` returns successfully
instead of failing with the unsupported-branch signal. -/
theorem c1_counterexample :
    install_yuzu env0 w0 "1.0" "mainline" = Except.ok w0
    ∧ (Except.ok w0
        ≠ (Except.error (EmuError.ignored "Only support install yuzu on branch [eden]")
            : Except EmuError World)) :=
  ⟨rfl, fun h => Except.noConfusion h⟩

/-- C1 (amended): for any branch other than `eden` and any version string,
`download_yuzu` fails with the unsupported-branch signal, and `install_yuzu`
does so too provided the requested version differs from the stored one
(otherwise it skips successfully before reaching the branch check). -/
theorem c1_unsupported_branch (env : Env) (w : World) (target_version branch : String)
    (hb : branch ≠ "eden") :
    download_yuzu env target_version branch
      = Except.error (EmuError.ignored "Only support install yuzu on branch [eden]")
    ∧ (w.cfgYuzu.yuzu_version ≠ some target_version →
        install_yuzu env w target_version branch
          = Except.error (EmuError.ignored "Only support install yuzu on branch [eden]")) := by
  constructor
  · simp [download_yuzu, hb]
  · intro hv
    have hv' : ¬ (some target_version = w.cfgYuzu.yuzu_version) := fun h => hv h.symm
    simp [install_yuzu, hv', hb]

/-- Witness for C1 at concrete inputs. -/
theorem c1_witness :
    download_yuzu env0 "2.0" "mainline"
      = Except.error (EmuError.ignored "Only support install yuzu on branch [eden]")
    ∧ install_yuzu env0 w0 "2.0" "mainline"
      = Except.error (EmuError.ignored "Only support install yuzu on branch [eden]") := by
  have h := c1_unsupported_branch env0 w0 "2.0" "mainline" (by decide)
  exact ⟨h.1, h.2 (by decide)⟩

/-! Claim C4. -/

/-- C4: if the requested version equals the stored version, `install_yuzu`
returns `ok` with the world — configuration, filesystem and history —
unchanged. -/
theorem c4_skip_install_noop (env : Env) (w : World) (target_version branch : String)
    (h : w.cfgYuzu.yuzu_version = some target_version) :
    install_yuzu env w target_version branch = Except.ok w := by
  simp [install_yuzu, h]

/-- Witness for C4 at concrete inputs. -/
theorem c4_witness : install_yuzu env0 w0 "1.0" "eden" = Except.ok w0 :=
  c4_skip_install_noop env0 w0 "1.0" "eden" rfl

/-! Claim C5. -/

/-- A window title the detector reacts to: one starting with `yuzu ` or
with `Eden | `. -/
def recognizedTitle (t : String) : Bool := strStarts t "yuzu " || strStarts t "Eden | "

/-- Titles with no recognized prefix are skipped by the scan. -/
lemma scanWindows_append_unrecognized (pre rest : List String)
    (h : ∀ t ∈ pre, recognizedTitle t = false) :
    scanWindows (pre ++ rest) = scanWindows rest := by
  induction pre with
  | nil => rfl
  | cons t ts ih =>
    have ht : recognizedTitle t = false := h t (List.mem_cons_self t ts)
    rw [recognizedTitle, Bool.or_eq_false_iff] at ht
    rw [List.cons_append]
    simp only [scanWindows, ht.1, ht.2, Bool.false_eq_true, if_false]
    exact ih (fun u hu => h u (List.mem_cons_of_mem t hu))

/-- C5 (counterexample): a list containing `"Eden | 1.2.3"` for which the
detector does not extract `("1.2.3", "eden")`, because an earlier title in
the list matches first. -/
theorem c5_counterexample :
    scanWindows ["yuzu 5", "Eden | 1.2.3"] = some ("5", "mainline")
    ∧ scanWindows ["yuzu 5", "Eden | 1.2.3"] ≠ some ("1.2.3", "eden") := by
  decide

/-- C5 (amended): in every window-title list whose first recognized title is
`"Eden | 1.2.3"`, the detector extracts version `"1.2.3"` and branch `eden`
(offset 7); with first recognized title `"yuzu Early Access 1234"` it
extracts `"1234"` and branch `ea` (offset 18); with `"yuzu 1234"`, `"1234"`
and branch `mainline` (offset 5). -/
theorem c5_window_title_extraction (pre post : List String)
    (h : ∀ t ∈ pre, recognizedTitle t = false) :
    scanWindows (pre ++ "Eden | 1.2.3" :: post) = some ("1.2.3", "eden")
    ∧ scanWindows (pre ++ "yuzu Early Access 1234" :: post) = some ("1234", "ea")
    ∧ scanWindows (pre ++ "yuzu 1234" :: post) = some ("1234", "mainline") := by
  refine ⟨?_, ?_, ?_⟩ <;> rw [scanWindows_append_unrecognized _ _ h] <;> rfl

/-- Witness for C5 at concrete inputs. -/
theorem c5_witness :
    scanWindows (["Notepad"] ++ "Eden | 1.2.3" :: ["yuzu 99"]) = some ("1.2.3", "eden")
    ∧ scanWindows (["Notepad"] ++ "yuzu Early Access 1234" :: ["yuzu 99"]) = some ("1234", "ea")
    ∧ scanWindows (["Notepad"] ++ "yuzu 1234" :: ["yuzu 99"]) = some ("1234", "mainline") :=
  c5_window_title_extraction ["Notepad"] ["yuzu 99"] (by decide)

/-! Claim C6. -/

/-- The scan keeps the first matching asset's URL. -/
lemma selectAssetUrl_first_match (ggdu : String → String) :
    ∀ (l : List Asset) (a : Asset), assetMatches a = true → a ∈ l →
      (∀ b ∈ l, assetMatches b = true → b = a) →
      selectAssetUrl ggdu l = some (ggdu a.download_url) := by
  intro l
  induction l with
  | nil => intro a _ hmem _; exact absurd hmem (List.not_mem_nil a)
  | cons x xs ih =>
    intro a ha hmem huniq
    by_cases hx : assetMatches x = true
    · have hxa : x = a := huniq x (List.mem_cons_self x xs) hx
      subst hxa
      simp [selectAssetUrl, hx]
    · have hax : a ≠ x := fun h => hx (h ▸ ha)
      have hmem' : a ∈ xs := by
        rcases List.mem_cons.mp hmem with h | h
        · exact absurd h hax
        · exact h
      have hstep : selectAssetUrl ggdu (x :: xs) = selectAssetUrl ggdu xs := by
        simp [selectAssetUrl, hx]
      rw [hstep]
      exact ih a ha hmem' (fun b hb hbm => huniq b (List.mem_cons_of_mem x hb) hbm)

/-- With no matching asset the scan yields nothing. -/
lemma selectAssetUrl_none (ggdu : String → String) :
    ∀ l : List Asset, (∀ b ∈ l, assetMatches b = false) →
      selectAssetUrl ggdu l = none := by
  intro l
  induction l with
  | nil => intro _; rfl
  | cons x xs ih =>
    intro h
    have hx := h x (List.mem_cons_self x xs)
    simp [selectAssetUrl, hx]
    exact ih (fun b hb => h b (List.mem_cons_of_mem x hb))

/-- C6: the asset scan is deterministic and order-respecting — when exactly
one asset of the ordered list matches one of the three naming patterns, its
URL is returned whatever the surrounding entries; and when none match,
`download_yuzu` fails with the descriptive signal. -/
theorem c6_asset_selection :
    (∀ (ggdu : String → String) (l : List Asset) (a : Asset),
        assetMatches a = true → a ∈ l →
        (∀ b ∈ l, assetMatches b = true → b = a) →
        selectAssetUrl ggdu l = some (ggdu a.download_url))
    ∧ (∀ (env : Env) (target_version : String),
        (env.releaseInfo target_version "eden").tag_name ≠ "" →
        (∀ b ∈ (env.releaseInfo target_version "eden").assets, assetMatches b = false) →
        download_yuzu env target_version "eden"
          = Except.error (EmuError.ignored "Fail to fetch yuzu download url.")) := by
  constructor
  · exact selectAssetUrl_first_match
  · intro env target_version htag hassets
    simp [download_yuzu, htag, selectAssetUrl_none env.ggdu _ hassets]

/-- Witness for C6 at concrete inputs. -/
theorem c6_witness :
    selectAssetUrl id
        [⟨"readme.txt", "u1"⟩, ⟨"eden.7z", "u2"⟩, ⟨"other.bin", "u3"⟩]
      = some "u2"
    ∧ download_yuzu { env0 with releaseInfo := fun _ _ =>
          { tag_name := "v1", assets := [⟨"readme.txt", "u1"⟩] } } "1.0" "eden"
      = Except.error (EmuError.ignored "Fail to fetch yuzu download url.") := by
  constructor
  · exact c6_asset_selection.1 id _ ⟨"eden.7z", "u2"⟩ (by decide) (by decide) (by decide)
  · exact c6_asset_selection.2 _ "1.0" (by decide) (by decide)

/-! Claim C7. -/

/-- C7: with the qt-config section parsed and both keys present, the NAND
resolver always decodes the raw value, while the load resolver decodes the
raw value only when it contains the two-character marker `\u` and otherwise
uses it verbatim. -/
theorem c7_decode_asymmetry (cfg : YuzuConfig) (fs : Path → Bool) (penv : PathEnv)
    (entries : List (String × String)) (ns ls : String)
    (hq : penv.qtConfig = QtConfigState.parsed entries)
    (hn : List.lookup "nand_directory" entries = some ns)
    (hl : List.lookup "load_directory" entries = some ls) :
    get_yuzu_nand_path cfg fs penv = penv.pathOfString (penv.decode_yuzu_path ns)
    ∧ get_yuzu_load_path cfg fs penv
      = penv.pathOfString
          (if strHasSub ls "\\u" then penv.decode_yuzu_path ls else ls) := by
  have hne : entries ≠ [] := by
    intro he
    rw [he] at hn
    exact Option.noConfusion hn
  constructor
  · simp [get_yuzu_nand_path, hq, hne, hn]
  · simp [get_yuzu_load_path, hq, hne, hl]

/-- A concrete path environment whose section carries both keys; the load
value contains the `\u` marker, so both values get decoded. -/
def penvMarked : PathEnv where
  appdata := ["AppData"]
  qtConfig := QtConfigState.parsed
    [("nand_directory", "D:/nand"), ("load_directory", "D:/l\\u0041")]
  decode_yuzu_path := fun s => "dec:" ++ s
  pathOfString := fun s => [s]

/-- Witness for C7 at concrete inputs. -/
theorem c7_witness :
    get_yuzu_nand_path cfg0 (fun _ => false) penvMarked = ["dec:D:/nand"]
    ∧ get_yuzu_load_path cfg0 (fun _ => false) penvMarked = ["dec:D:/l\\u0041"] := by
  have h := c7_decode_asymmetry cfg0 (fun _ => false) penvMarked
    [("nand_directory", "D:/nand"), ("load_directory", "D:/l\\u0041")]
    "D:/nand" "D:/l\\u0041" rfl (by decide) (by decide)
  exact ⟨h.1, by rw [h.2]; decide⟩

/-! Claim C8. -/

/-- C8: when both `nand_directory` and `load_directory` are absent from the
parsed section, and likewise when parsing the qt-config raises, both
resolvers return the default `nand` and `load` subfolders of the user-data
path, with nothing propagated to the caller. -/
theorem c8_defaults_when_keys_absent :
    (∀ (cfg : YuzuConfig) (fs : Path → Bool) (penv : PathEnv)
        (entries : List (String × String)),
      penv.qtConfig = QtConfigState.parsed entries →
      List.lookup "nand_directory" entries = none →
      List.lookup "load_directory" entries = none →
      get_yuzu_nand_path cfg fs penv = get_yuzu_user_path cfg fs penv ++ ["nand"]
      ∧ get_yuzu_load_path cfg fs penv = get_yuzu_user_path cfg fs penv ++ ["load"])
    ∧ (∀ (cfg : YuzuConfig) (fs : Path → Bool) (penv : PathEnv),
      penv.qtConfig = QtConfigState.parseError →
      get_yuzu_nand_path cfg fs penv = get_yuzu_user_path cfg fs penv ++ ["nand"]
      ∧ get_yuzu_load_path cfg fs penv = get_yuzu_user_path cfg fs penv ++ ["load"]) := by
  constructor
  · intro cfg fs penv entries hq hn hl
    constructor
    · by_cases he : entries = [] <;> simp [get_yuzu_nand_path, hq, he, hn]
    · by_cases he : entries = [] <;> simp [get_yuzu_load_path, hq, he, hl]
  · intro cfg fs penv hq
    exact ⟨by simp [get_yuzu_nand_path, hq], by simp [get_yuzu_load_path, hq]⟩

/-- A concrete path environment whose section has unrelated keys only. -/
def penvEmptyKeys : PathEnv where
  appdata := ["AppData"]
  qtConfig := QtConfigState.parsed [("other_key", "x")]
  decode_yuzu_path := fun s => "dec:" ++ s
  pathOfString := fun s => [s]

/-- Witness for C8 at concrete inputs. -/
theorem c8_witness :
    (get_yuzu_nand_path cfg0 (fun _ => false) penvEmptyKeys
        = get_yuzu_user_path cfg0 (fun _ => false) penvEmptyKeys ++ ["nand"]
      ∧ get_yuzu_load_path cfg0 (fun _ => false) penvEmptyKeys
        = get_yuzu_user_path cfg0 (fun _ => false) penvEmptyKeys ++ ["load"])
    ∧ (get_yuzu_nand_path cfg0 (fun _ => false)
          { penvEmptyKeys with qtConfig := QtConfigState.parseError }
        = get_yuzu_user_path cfg0 (fun _ => false)
          { penvEmptyKeys with qtConfig := QtConfigState.parseError } ++ ["nand"]
      ∧ get_yuzu_load_path cfg0 (fun _ => false)
          { penvEmptyKeys with qtConfig := QtConfigState.parseError }
        = get_yuzu_user_path cfg0 (fun _ => false)
          { penvEmptyKeys with qtConfig := QtConfigState.parseError } ++ ["load"]) :=
  ⟨c8_defaults_when_keys_absent.1 cfg0 (fun _ => false) penvEmptyKeys
      [("other_key", "x")] rfl (by decide) (by decide),
   c8_defaults_when_keys_absent.2 cfg0 (fun _ => false)
      { penvEmptyKeys with qtConfig := QtConfigState.parseError } rfl⟩

/-! Claim C9. -/

/-- C9: whatever the configuration, settings and filesystem, the resolved
executable path extends the configured `yuzu_path` by one component — it
always lies inside the install directory. -/
theorem c9_exe_path_in_install_dir (cfg : YuzuConfig) (st : Settings) (fs : Path → Bool) :
    ∃ exe_name, get_yuzu_exe_path cfg st fs = cfg.yuzu_path ++ [exe_name] := by
  unfold get_yuzu_exe_path
  by_cases h : ((st.rename_yuzu_to_cemu || !fs (cfg.yuzu_path ++ ["yuzu.exe"]))
      && fs (cfg.yuzu_path ++ ["cemu.exe"])) = true
  · exact ⟨"cemu.exe", by simp [h]⟩
  · cases hf : List.find? (fun exe_name => fs (cfg.yuzu_path ++ [exe_name])) detect_exe_list with
    | none => exact ⟨"yuzu.exe", by simp [h, hf]⟩
    | some n => exact ⟨n, by simp [h, hf]⟩

/-! Claim C10. -/

/-- A list is a prefix of itself (for the `mkdir(parents=True)` model). -/
lemma isPrefixOf_self (l : List String) : List.isPrefixOf l l = true := by
  induction l with
  | nil => rfl
  | cons x xs ih => simp [List.isPrefixOf, ih]

/-- C10: `update_yuzu_path` leaves the target directory existing in every
case — in particular it creates it before the comparison — and when the
absolutised new path equals the absolutised configured path, the
configuration and history are untouched (the directory creation being the
only effect). -/
theorem c10_update_path_creates_dir (env : Env) (w : World) (new_yuzu_path : Path) :
    (update_yuzu_path env w new_yuzu_path).fs new_yuzu_path = true
    ∧ (env.absP new_yuzu_path = env.absP w.cfgYuzu.yuzu_path →
        (update_yuzu_path env w new_yuzu_path).cfgYuzu = w.cfgYuzu
        ∧ (update_yuzu_path env w new_yuzu_path).hist = w.hist) := by
  have hfs1 : (if w.fs new_yuzu_path = false then mkdirParents new_yuzu_path w.fs
      else w.fs) new_yuzu_path = true := by
    by_cases h : w.fs new_yuzu_path = false
    · simp [h, mkdirParents, isPrefixOf_self]
    · simp [h]
  constructor
  · by_cases hab : env.absP new_yuzu_path = env.absP w.cfgYuzu.yuzu_path <;>
      simpa [update_yuzu_path, hab] using hfs1
  · intro hab
    simp [update_yuzu_path, hab]

/-- Witness for C10 at concrete inputs: the new path equals the configured
path and does not yet exist; it gets created while the configuration and
history stay as they were. -/
theorem c10_witness :
    (update_yuzu_path env0 w0 ["C:", "yuzu"]).fs ["C:", "yuzu"] = true
    ∧ (update_yuzu_path env0 w0 ["C:", "yuzu"]).cfgYuzu = w0.cfgYuzu
    ∧ (update_yuzu_path env0 w0 ["C:", "yuzu"]).hist = w0.hist := by
  have h := c10_update_path_creates_dir env0 w0 ["C:", "yuzu"]
  exact ⟨h.1, (h.2 rfl).1, (h.2 rfl).2⟩

/-! Claim C2. -/

/-- A truthy optional string is present. -/
lemma versionTruthy_isSome {x : Option String} (h : versionTruthy x = true) :
    x.isSome = true := by
  cases x with
  | none => simp [versionTruthy] at h
  | some s => rfl

/-- Along the poll loop, a present version comes with a present branch:
the loop assigns the two components together. -/
lemma pollGo_pair_isSome (getWin : Nat → Except Unit (List String)) :
    ∀ (fuel i : Nat) (vb : Option String × Option String),
      (vb.1.isSome = true → vb.2.isSome = true) →
      ((pollGo getWin i fuel vb).1.isSome = true →
        (pollGo getWin i fuel vb).2.isSome = true) := by
  intro fuel
  induction fuel with
  | zero => intro i vb h; exact h
  | succ n ih =>
    intro i vb h
    obtain ⟨v, b⟩ := vb
    by_cases hv : versionTruthy v = true
    · simpa [pollGo, hv] using h
    · cases hg : getWin i with
      | error e =>
        simpa [pollGo, hv, hg] using h
      | ok titles =>
        cases hs : scanWindows titles with
        | none =>
          simp only [pollGo, hv, hg, hs, Bool.false_eq_true, if_false]
          exact ih (i + 1) (v, b) h
        | some p =>
          obtain ⟨sv, sb⟩ := p
          simp only [pollGo, hv, hg, hs, Bool.false_eq_true, if_false]
          exact ih (i + 1) (some sv, some sb) (fun _ => rfl)

/-- The run of `detect_yuzu_version` past its two guards, with the poll
result left symbolic. -/
lemma detect_run (env : Env) (w : World)
    (hfs : w.fs (get_yuzu_exe_path w.cfgYuzu w.settings w.fs) = true)
    (hinst : env.find_all_instances
        (pathName (get_yuzu_exe_path w.cfgYuzu w.settings w.fs)) = []) :
    detect_yuzu_version env w =
      (let vb := pollGo env.getWin 0 30 (none, none)
       let cfg1 := if versionTruthy vb.1 then { w.cfgYuzu with branch := vb.2 }
                   else w.cfgYuzu
       ({ w with cfgYuzu := { cfg1 with yuzu_version := vb.1 } }, .ok vb.1)) := by
  simp [detect_yuzu_version, hfs, hinst]

/-- C2 (counterexample): from a world whose configuration has both
`yuzu_version` and `branch` set, running version detection with the
executable absent clears `yuzu_version` but leaves `branch` set — the
fields end up neither both set nor both absent. -/
theorem c2_counterexample :
    (detect_yuzu_version env0 w0).1.cfgYuzu.yuzu_version = none
    ∧ (detect_yuzu_version env0 w0).1.cfgYuzu.branch = some "eden" :=
  ⟨rfl, rfl⟩

/-- C2 (amended): a non-skipped successful install stores both the version
and the branch; a firmware install changes neither; a detection that found
a truthy version stores the version together with its (present) branch; but
a detection that found the executable missing clears `yuzu_version` while
leaving `branch` at its previous value, so the both-set-or-both-absent
invariant survives that write only when `branch` was already absent. -/
theorem c2_version_branch_pairing :
    (∀ (env : Env) (w : World) (target_version branch : String) (w' : World),
        install_yuzu env w target_version branch = Except.ok w' →
        w.cfgYuzu.yuzu_version ≠ some target_version →
        w'.cfgYuzu.yuzu_version = some target_version
        ∧ w'.cfgYuzu.branch = some branch)
    ∧ (∀ (env : Env) (penv : PathEnv) (w : World) (fv : Option String),
        (install_firmware_to_yuzu env penv w fv).cfgYuzu.yuzu_version
            = w.cfgYuzu.yuzu_version
        ∧ (install_firmware_to_yuzu env penv w fv).cfgYuzu.branch
            = w.cfgYuzu.branch)
    ∧ (∀ (env : Env) (w : World),
        w.fs (get_yuzu_exe_path w.cfgYuzu w.settings w.fs) = false →
        (detect_yuzu_version env w).1.cfgYuzu.yuzu_version = none
        ∧ (detect_yuzu_version env w).1.cfgYuzu.branch = w.cfgYuzu.branch)
    ∧ (∀ (env : Env) (w : World),
        w.fs (get_yuzu_exe_path w.cfgYuzu w.settings w.fs) = true →
        env.find_all_instances
            (pathName (get_yuzu_exe_path w.cfgYuzu w.settings w.fs)) = [] →
        versionTruthy (pollGo env.getWin 0 30 (none, none)).1 = true →
        (detect_yuzu_version env w).1.cfgYuzu.yuzu_version
            = (pollGo env.getWin 0 30 (none, none)).1
        ∧ (detect_yuzu_version env w).1.cfgYuzu.branch
            = (pollGo env.getWin 0 30 (none, none)).2
        ∧ ((pollGo env.getWin 0 30 (none, none)).2).isSome = true) := by
  refine ⟨?_, ?_, ?_, ?_⟩
  · intro env w target_version branch w' hok hv
    have hv' : ¬ (some target_version = w.cfgYuzu.yuzu_version) := fun h => hv h.symm
    by_cases hb : branch = "eden"
    · subst hb
      rw [install_yuzu, if_neg hv', if_neg (fun h => h rfl)] at hok
      cases hie : install_eden env w target_version with
      | error e => rw [hie] at hok; exact Except.noConfusion hok
      | ok fs2 =>
        rw [hie] at hok
        injection hok with hw
        subst hw
        exact ⟨rfl, rfl⟩
    · rw [install_yuzu, if_neg hv', if_pos hb] at hok
      exact Except.noConfusion hok
  · intro env penv w fv
    by_cases hv : fv = w.cfgYuzu.yuzu_firmware
    · simp [install_firmware_to_yuzu, hv]
    · by_cases ht : versionTruthy
          (env.install_firmware fv
            (get_yuzu_nand_path w.cfgYuzu w.fs penv
              ++ ["system", "Contents", "registered"])) = true
      · simp [install_firmware_to_yuzu, hv, ht]
      · simp [install_firmware_to_yuzu, hv, ht]
  · intro env w hfs
    simp [detect_yuzu_version, hfs]
  · intro env w hfs hinst htr
    rw [detect_run env w hfs hinst]
    refine ⟨by simp [htr], by simp [htr], ?_⟩
    exact pollGo_pair_isSome env.getWin 30 0 (none, none) (fun h => h)
      (versionTruthy_isSome htr)

/-- An environment whose release feed answers with a tagged release holding
one matching asset. -/
def envRel : Env :=
  { env0 with releaseInfo := fun _ _ => { tag_name := "v1", assets := [⟨"eden.7z", "u2"⟩] } }

/-- An environment whose window enumeration reports an Eden window. -/
def envWin : Env := { env0 with getWin := fun _ => Except.ok ["Eden | 9.9"] }

/-- A world where every path exists on disk. -/
def wExe : World where
  cfgYuzu := cfg0
  settings := settings0
  fs := fun _ => true
  hist := fun _ => none

/-- The world produced by a successful concrete install. -/
def wInst : World := ((install_yuzu envRel w0 "2.0" "eden").toOption).getD w0

/-- Witness for C2 at concrete inputs: one instantiation per conjunct. -/
theorem c2_witness :
    (wInst.cfgYuzu.yuzu_version = some "2.0" ∧ wInst.cfgYuzu.branch = some "eden")
    ∧ ((install_firmware_to_yuzu env0 penvMarked w0 (some "17")).cfgYuzu.yuzu_version
          = w0.cfgYuzu.yuzu_version
        ∧ (install_firmware_to_yuzu env0 penvMarked w0 (some "17")).cfgYuzu.branch
          = w0.cfgYuzu.branch)
    ∧ ((detect_yuzu_version env0 w0).1.cfgYuzu.yuzu_version = none
        ∧ (detect_yuzu_version env0 w0).1.cfgYuzu.branch = w0.cfgYuzu.branch)
    ∧ ((detect_yuzu_version envWin wExe).1.cfgYuzu.yuzu_version
          = (pollGo envWin.getWin 0 30 (none, none)).1
        ∧ (detect_yuzu_version envWin wExe).1.cfgYuzu.branch
          = (pollGo envWin.getWin 0 30 (none, none)).2
        ∧ ((pollGo envWin.getWin 0 30 (none, none)).2).isSome = true) := by
  have h := c2_version_branch_pairing
  exact ⟨h.1 envRel w0 "2.0" "eden" wInst rfl (by decide),
         h.2.1 env0 penvMarked w0 (some "17"),
         h.2.2.1 env0 w0 rfl,
         h.2.2.2 envWin wExe rfl rfl (by decide)⟩

/-! Claim C3. -/

/-- A failing window enumeration ends the poll loop with its state so far. -/
lemma pollGo_getWin_error (getWin : Nat → Except Unit (List String)) (i fuel : Nat)
    (v b : Option String) (hv : versionTruthy v = false)
    (hg : getWin i = .error ()) :
    pollGo getWin i (fuel + 1) (v, b) = (v, b) := by
  simp [pollGo, hv, hg]

/-- An environment reporting one running emulator instance. -/
def envBusy : Env := { env0 with find_all_instances := fun _ => [123] }

/-- An environment whose window enumeration raises. -/
def envWinFail : Env := { env0 with getWin := fun _ => Except.error () }

/-- An environment whose `copytree` fails. -/
def envCopyFail : Env := { env0 with copytree := fun _ _ _ => none }

/-- C3 (counterexample): with the executable present and an instance
already running, version detection returns `None` normally — the busy
condition is not raised to the caller as an exception, and the state is
untouched. -/
theorem c3_counterexample :
    detect_yuzu_version envBusy wExe = (wExe, Except.ok none)
    ∧ ¬ ∃ e, (detect_yuzu_version envBusy wExe).2 = Except.error e := by
  refine ⟨rfl, ?_⟩
  rintro ⟨e, h⟩
  rw [show detect_yuzu_version envBusy wExe = (wExe, Except.ok none) from rfl] at h
  exact Except.noConfusion h

/-- C3 (amended): the unsupported-branch, version-not-found and
no-matching-asset errors are raised by the downloader, a copy failure is
wrapped into the copy-failed error and raised, and a missing executable is
raised by `start_yuzu`; but the busy condition makes version detection
return `None` without an exception or state change; window-enumeration
failures are swallowed (detection proceeds as timed out) and qt-config
parse failures are swallowed (default paths stand). -/
theorem c3_error_taxonomy :
    (∀ (env : Env) (target_version branch : String), branch ≠ "eden" →
        download_yuzu env target_version branch
          = Except.error (EmuError.ignored "Only support install yuzu on branch [eden]"))
    ∧ (∀ (env : Env) (target_version : String),
        (env.releaseInfo target_version "eden").tag_name = "" →
        download_yuzu env target_version "eden"
          = Except.error (EmuError.versionNotFound target_version "eden" "yuzu"))
    ∧ (∀ (env : Env) (target_version : String),
        (env.releaseInfo target_version "eden").tag_name ≠ "" →
        (∀ b ∈ (env.releaseInfo target_version "eden").assets, assetMatches b = false) →
        download_yuzu env target_version "eden"
          = Except.error (EmuError.ignored "Fail to fetch yuzu download url."))
    ∧ (∀ (env : Env) (tmp_dir yuzu_path : Path) (fs : Path → Bool),
        env.copytree tmp_dir yuzu_path (env.rmSourceTarballs tmp_dir fs) = none →
        copy_back_yuzu_files env tmp_dir yuzu_path fs
          = Except.error (EmuError.failToCopyFiles "Yuzu 文件复制失败"))
    ∧ (∀ w : World, w.fs (get_yuzu_exe_path w.cfgYuzu w.settings w.fs) = false →
        start_yuzu w = Except.error (EmuError.ignored
          ("yuzu not exist in ["
            ++ String.intercalate "\\" (get_yuzu_exe_path w.cfgYuzu w.settings w.fs)
            ++ "]")))
    ∧ (∀ (env : Env) (w : World),
        w.fs (get_yuzu_exe_path w.cfgYuzu w.settings w.fs) = true →
        env.find_all_instances
            (pathName (get_yuzu_exe_path w.cfgYuzu w.settings w.fs)) ≠ [] →
        detect_yuzu_version env w = (w, Except.ok none))
    ∧ (∀ (env : Env) (w : World),
        w.fs (get_yuzu_exe_path w.cfgYuzu w.settings w.fs) = true →
        env.find_all_instances
            (pathName (get_yuzu_exe_path w.cfgYuzu w.settings w.fs)) = [] →
        env.getWin 0 = Except.error () →
        detect_yuzu_version env w
          = ({ w with cfgYuzu := { w.cfgYuzu with yuzu_version := none } },
             Except.ok none))
    ∧ (∀ (cfg : YuzuConfig) (fs : Path → Bool) (penv : PathEnv),
        penv.qtConfig = QtConfigState.parseError →
        get_yuzu_nand_path cfg fs penv = get_yuzu_user_path cfg fs penv ++ ["nand"]
        ∧ get_yuzu_load_path cfg fs penv
          = get_yuzu_user_path cfg fs penv ++ ["load"]) := by
  refine ⟨?_, ?_, ?_, ?_, ?_, ?_, ?_, ?_⟩
  · intro env target_version branch hb
    simp [download_yuzu, hb]
  · intro env target_version htag
    simp [download_yuzu, htag]
  · intro env target_version htag hassets
    simp [download_yuzu, htag, selectAssetUrl_none env.ggdu _ hassets]
  · intro env tmp_dir yuzu_path fs hcopy
    simp [copy_back_yuzu_files, hcopy]
  · intro w hfs
    simp [start_yuzu, hfs]
  · intro env w hfs hinst
    simp [detect_yuzu_version, hfs, hinst]
  · intro env w hfs hinst hgw
    have hp : pollGo env.getWin 0 30 (none, none) = (none, none) :=
      pollGo_getWin_error env.getWin 0 29 none none rfl hgw
    rw [detect_run env w hfs hinst]
    simp [hp, versionTruthy]
  · intro cfg fs penv hq
    exact ⟨by simp [get_yuzu_nand_path, hq], by simp [get_yuzu_load_path, hq]⟩

/-- Witness for C3 at concrete inputs: one instantiation per conjunct. -/
theorem c3_witness :
    download_yuzu env0 "2.0" "mainline"
      = Except.error (EmuError.ignored "Only support install yuzu on branch [eden]")
    ∧ download_yuzu env0 "2.0" "eden"
      = Except.error (EmuError.versionNotFound "2.0" "eden" "yuzu")
    ∧ download_yuzu { env0 with releaseInfo := fun _ _ =>
          { tag_name := "v1", assets := [⟨"readme.txt", "u1"⟩] } } "2.0" "eden"
      = Except.error (EmuError.ignored "Fail to fetch yuzu download url.")
    ∧ copy_back_yuzu_files envCopyFail ["tmp", "eden-install"] ["C:", "yuzu"]
        (fun _ => false)
      = Except.error (EmuError.failToCopyFiles "Yuzu 文件复制失败")
    ∧ start_yuzu w0 = Except.error (EmuError.ignored
        ("yuzu not exist in ["
          ++ String.intercalate "\\" (get_yuzu_exe_path w0.cfgYuzu w0.settings w0.fs)
          ++ "]"))
    ∧ detect_yuzu_version envBusy wExe = (wExe, Except.ok none)
    ∧ detect_yuzu_version envWinFail wExe
      = ({ wExe with cfgYuzu := { wExe.cfgYuzu with yuzu_version := none } },
         Except.ok none)
    ∧ (get_yuzu_nand_path cfg0 (fun _ => false)
          { penvEmptyKeys with qtConfig := QtConfigState.parseError }
        = get_yuzu_user_path cfg0 (fun _ => false)
          { penvEmptyKeys with qtConfig := QtConfigState.parseError } ++ ["nand"]
      ∧ get_yuzu_load_path cfg0 (fun _ => false)
          { penvEmptyKeys with qtConfig := QtConfigState.parseError }
        = get_yuzu_user_path cfg0 (fun _ => false)
          { penvEmptyKeys with qtConfig := QtConfigState.parseError } ++ ["load"]) := by
  have h := c3_error_taxonomy
  exact ⟨h.1 env0 "2.0" "mainline" (by decide),
         h.2.1 env0 "2.0" rfl,
         h.2.2.1 _ "2.0" (by decide) (by decide),
         h.2.2.2.1 envCopyFail ["tmp", "eden-install"] ["C:", "yuzu"] (fun _ => false) rfl,
         h.2.2.2.2.1 w0 rfl,
         h.2.2.2.2.2.1 envBusy wExe rfl (by decide),
         h.2.2.2.2.2.2.1 envWinFail wExe rfl rfl rfl,
         h.2.2.2.2.2.2.2 cfg0 (fun _ => false)
           { penvEmptyKeys with qtConfig := QtConfigState.parseError } rfl⟩

end Yuzu
